import Mathlib

/-!
Shallow embedding of the MoltBond contract (src/contracts/MoltBond.sol):
an agent reputation staking and escrow state machine.  Addresses are
natural numbers, uint256 values are natural numbers (Solidity 0.8
checked arithmetic reverts on overflow; amounts here are unbounded),
`block.timestamp` is an explicit `now` argument, and the USDC token is
modelled by the contract's held balance together with an explicit trace
of transfer actions.  Every operation returns `Except Err (State × List Act)`:
a revert leaves the state unchanged, a success returns the new state and
the list of bookkeeping writes, token transfers and events in the order
the source issues them.
-/

set_option linter.unusedVariables false

namespace MoltBond

/-- Addresses, modelled as natural numbers. -/
abbrev Addr := Nat

/-- `enum DealStatus { Active, Completed, Disputed, Cancelled, Expired }`. -/
inductive DealStatus
  | Active
  | Completed
  | Disputed
  | Cancelled
  | Expired
deriving DecidableEq, Repr

/-- `struct Agent` of the contract. -/
structure Agent where
  name : String
  staked : Nat
  dealsCompleted : Nat
  dealsFailed : Nat
  totalVolume : Nat
  registeredAt : Nat
  «exists» : Bool
deriving DecidableEq, Repr

/-- The default value a Solidity mapping yields for an absent key. -/
def Agent.empty : Agent :=
  { name := "", staked := 0, dealsCompleted := 0, dealsFailed := 0,
    totalVolume := 0, registeredAt := 0, «exists» := false }

/-- `struct Deal` of the contract. -/
structure Deal where
  id : Nat
  creator : Addr
  counterparty : Addr
  amount : Nat
  description : String
  status : DealStatus
  createdAt : Nat
  expiresAt : Nat
  creatorConfirmed : Bool
  counterpartyConfirmed : Bool
deriving DecidableEq, Repr

/-- The default value a Solidity storage slot yields for an absent deal. -/
def Deal.empty : Deal :=
  { id := 0, creator := 0, counterparty := 0, amount := 0, description := "",
    status := .Active, createdAt := 0, expiresAt := 0,
    creatorConfirmed := false, counterpartyConfirmed := false }

/-- `uint256 public constant MIN_STAKE = 1e6`. -/
def MIN_STAKE : Nat := 1000000

/-- `uint256 public constant UNSTAKE_COOLDOWN = 1 days`. -/
def UNSTAKE_COOLDOWN : Nat := 86400

/-- `uint256 public constant DEFAULT_EXPIRY = 7 days`. -/
def DEFAULT_EXPIRY : Nat := 604800

/-- `uint256 public constant SLASH_PERCENT = 10`. -/
def SLASH_PERCENT : Nat := 10

/-- Contract storage plus the contract's held token balance
(`usdc.balanceOf(address(this))`, as tracked by the token). -/
structure State where
  agents : Addr → Agent
  agentList : List Addr
  deals : List Deal
  unstakeRequestedAt : Addr → Nat
  held : Nat

/-- The named failure conditions of the spec; each corresponds to one
`require` message of the contract. -/
inductive Err
  | NotRegistered
  | AlreadyRegistered
  | InvalidName
  | BelowMinimumStake
  | InsufficientStake
  | NothingStaked
  | NoUnstakeRequested
  | CooldownNotElapsed
  | DealNotFound
  | DealNotActive
  | NotAParty
  | SelfDeal
  | InvalidAmount
  | DealNotExpired
deriving DecidableEq, Repr

/-- The contract's events. -/
inductive Ev
  | AgentRegistered (agent : Addr) (name : String) (timestamp : Nat)
  | Staked (agent : Addr) (amount : Nat) (totalStaked : Nat)
  | UnstakeRequested (agent : Addr) (timestamp : Nat)
  | Unstaked (agent : Addr) (amount : Nat) (remaining : Nat)
  | DealCreated (dealId : Nat) (creator : Addr) (counterparty : Addr)
      (amount : Nat) (description : String)
  | DealCompleted (dealId : Nat) (timestamp : Nat)
  | DealDisputed (dealId : Nat) (disputedBy : Addr)
  | DealCancelled (dealId : Nat)
  | DealExpired (dealId : Nat)
  | Slashed (agent : Addr) (amount : Nat) (dealId : Nat)
deriving DecidableEq, Repr

/-- Which storage location a bookkeeping write touches. -/
inductive WriteKind
  | agentCreate
  | agentListPush
  | stakedW
  | unstakeReqW
  | dealPush
  | confirmFlagW
  | statusW
  | dealsCompletedW
  | dealsFailedW
  | totalVolumeW
deriving DecidableEq, Repr

/-- One primitive action of an operation, in source order: a storage
write, an inbound `safeTransferFrom`, an outbound `safeTransfer`, or an
event emission. -/
inductive Act
  | w (k : WriteKind)
  | transferIn (source : Addr) (amount : Nat)
  | transferOut (recipient : Addr) (amount : Nat)
  | ev (e : Ev)
deriving DecidableEq, Repr

/-- `registerAgent(string calldata _name)` (MoltBond.sol lines 80-96). -/
def registerAgent (s : State) (caller : Addr) (now : Nat) (name : String) :
    Except Err (State × List Act) :=
  if (s.agents caller).exists then .error .AlreadyRegistered
  else if name.utf8ByteSize = 0 ∨ 32 < name.utf8ByteSize then .error .InvalidName
  else
    .ok ({ s with
            agents := Function.update s.agents caller
              { name := name, staked := 0, dealsCompleted := 0, dealsFailed := 0,
                totalVolume := 0, registeredAt := now, «exists» := true },
            agentList := s.agentList ++ [caller] },
         [.w .agentCreate, .w .agentListPush, .ev (.AgentRegistered caller name now)])

/-- `stake(uint256 _amount)` (MoltBond.sol lines 99-110). -/
def stake (s : State) (caller : Addr) (now : Nat) (amount : Nat) :
    Except Err (State × List Act) :=
  if ¬ (s.agents caller).exists then .error .NotRegistered
  else if amount < MIN_STAKE then .error .BelowMinimumStake
  else
    let a := s.agents caller
    .ok ({ s with
            held := s.held + amount,
            agents := Function.update s.agents caller ({ a with staked := a.staked + amount }),
            unstakeRequestedAt := Function.update s.unstakeRequestedAt caller 0 },
         [.transferIn caller amount, .w .stakedW, .w .unstakeReqW,
          .ev (.Staked caller amount (a.staked + amount))])

/-- `requestUnstake()` (MoltBond.sol lines 113-119). -/
def requestUnstake (s : State) (caller : Addr) (now : Nat) :
    Except Err (State × List Act) :=
  if ¬ (s.agents caller).exists then .error .NotRegistered
  else if (s.agents caller).staked = 0 then .error .NothingStaked
  else
    .ok ({ s with unstakeRequestedAt := Function.update s.unstakeRequestedAt caller now },
         [.w .unstakeReqW, .ev (.UnstakeRequested caller now)])

/-- `unstake(uint256 _amount)` (MoltBond.sol lines 122-139). -/
def unstake (s : State) (caller : Addr) (now : Nat) (amount : Nat) :
    Except Err (State × List Act) :=
  if ¬ (s.agents caller).exists then .error .NotRegistered
  else if (s.agents caller).staked < amount then .error .InsufficientStake
  else if s.unstakeRequestedAt caller = 0 then .error .NoUnstakeRequested
  else if now < s.unstakeRequestedAt caller + UNSTAKE_COOLDOWN then .error .CooldownNotElapsed
  else
    let a := s.agents caller
    let s1 : State := { s with
      agents := Function.update s.agents caller ({ a with staked := a.staked - amount }),
      held := s.held - amount }
    if a.staked - amount = 0 then
      .ok ({ s1 with unstakeRequestedAt := Function.update s.unstakeRequestedAt caller 0 },
           [.w .stakedW, .transferOut caller amount, .w .unstakeReqW,
            .ev (.Unstaked caller amount (a.staked - amount))])
    else
      .ok (s1, [.w .stakedW, .transferOut caller amount,
                .ev (.Unstaked caller amount (a.staked - amount))])

/-- `createDeal(...)` (MoltBond.sol lines 144-175). -/
def createDeal (s : State) (caller : Addr) (now : Nat) (counterparty : Addr)
    (amount : Nat) (description : String) (expiryDuration : Nat) :
    Except Err (State × List Act) :=
  if ¬ (s.agents caller).exists then .error .NotRegistered
  else if ¬ (s.agents counterparty).exists then .error .NotRegistered
  else if caller = counterparty then .error .SelfDeal
  else if amount = 0 then .error .InvalidAmount
  else
    let expiry := if 0 < expiryDuration then expiryDuration else DEFAULT_EXPIRY
    let dealId := s.deals.length
    let d : Deal :=
      { id := dealId, creator := caller, counterparty := counterparty,
        amount := amount, description := description, status := .Active,
        createdAt := now, expiresAt := now + expiry,
        creatorConfirmed := false, counterpartyConfirmed := false }
    .ok ({ s with held := s.held + amount, deals := s.deals ++ [d] },
         [.transferIn caller amount, .w .dealPush,
          .ev (.DealCreated dealId caller counterparty amount description)])

/-- `_completeDeal(uint256 _dealId)` (MoltBond.sol lines 247-261); only
invoked by `confirmDeal` with a valid deal id. -/
def _completeDeal (s : State) (dealId : Nat) (now : Nat) : State × List Act :=
  let deal := s.deals.getD dealId Deal.empty
  let s1 : State := { s with
    deals := s.deals.set dealId ({ deal with status := .Completed }),
    held := s.held - deal.amount }
  let c := s1.agents deal.creator
  let c' : Agent :=
    { c with dealsCompleted := c.dealsCompleted + 1, totalVolume := c.totalVolume + deal.amount }
  let s2 : State := { s1 with agents := Function.update s1.agents deal.creator c' }
  let p := s2.agents deal.counterparty
  let p' : Agent :=
    { p with dealsCompleted := p.dealsCompleted + 1, totalVolume := p.totalVolume + deal.amount }
  let s3 : State := { s2 with agents := Function.update s2.agents deal.counterparty p' }
  (s3, [.w .statusW, .transferOut deal.counterparty deal.amount,
        .w .dealsCompletedW, .w .totalVolumeW, .w .dealsCompletedW, .w .totalVolumeW,
        .ev (.DealCompleted dealId now)])

/-- `confirmDeal(uint256 _dealId)` (MoltBond.sol lines 178-197). -/
def confirmDeal (s : State) (caller : Addr) (now : Nat) (dealId : Nat) :
    Except Err (State × List Act) :=
  match s.deals[dealId]? with
  | none => .error .DealNotFound
  | some deal =>
    if ¬ deal.status = .Active then .error .DealNotActive
    else if ¬ (caller = deal.creator ∨ caller = deal.counterparty) then .error .NotAParty
    else
      let deal' := if caller = deal.creator then { deal with creatorConfirmed := true }
                   else { deal with counterpartyConfirmed := true }
      let s1 : State := { s with deals := s.deals.set dealId deal' }
      if deal'.creatorConfirmed && deal'.counterpartyConfirmed then
        let r := _completeDeal s1 dealId now
        .ok (r.1, .w .confirmFlagW :: r.2)
      else
        .ok (s1, [.w .confirmFlagW])

/-- `disputeDeal(uint256 _dealId)` (MoltBond.sol lines 200-228). -/
def disputeDeal (s : State) (caller : Addr) (now : Nat) (dealId : Nat) :
    Except Err (State × List Act) :=
  match s.deals[dealId]? with
  | none => .error .DealNotFound
  | some deal =>
    if ¬ deal.status = .Active then .error .DealNotActive
    else if ¬ (caller = deal.creator ∨ caller = deal.counterparty) then .error .NotAParty
    else
      let s1 : State := { s with
        deals := s.deals.set dealId ({ deal with status := .Disputed }),
        held := s.held - deal.amount }
      let slashTarget := if caller = deal.creator then deal.counterparty else deal.creator
      let slashAmount := (s1.agents slashTarget).staked * SLASH_PERCENT / 100
      let r : State × List Act :=
        if 0 < slashAmount then
          let t := s1.agents slashTarget
          ({ s1 with
              agents := Function.update s1.agents slashTarget
                ({ t with staked := t.staked - slashAmount }),
              held := s1.held - slashAmount },
           [.w .stakedW, .transferOut caller slashAmount,
            .ev (.Slashed slashTarget slashAmount dealId)])
        else (s1, [])
      let t2 := r.1.agents slashTarget
      let t2' : Agent := { t2 with dealsFailed := t2.dealsFailed + 1 }
      let s3 : State := { r.1 with agents := Function.update r.1.agents slashTarget t2' }
      .ok (s3, [.w .statusW, .transferOut deal.creator deal.amount] ++ r.2 ++
               [.w .dealsFailedW, .ev (.DealDisputed dealId caller)])

/-- `cancelExpiredDeal(uint256 _dealId)` (MoltBond.sol lines 231-243). -/
def cancelExpiredDeal (s : State) (caller : Addr) (now : Nat) (dealId : Nat) :
    Except Err (State × List Act) :=
  match s.deals[dealId]? with
  | none => .error .DealNotFound
  | some deal =>
    if ¬ deal.status = .Active then .error .DealNotActive
    else if now < deal.expiresAt then .error .DealNotExpired
    else
      let s' : State :=
        { s with deals := s.deals.set dealId ({ deal with status := .Expired }),
                 held := s.held - deal.amount }
      .ok (s', [.w .statusW, .transferOut deal.creator deal.amount, .ev (.DealExpired dealId)])

/-- `_min(uint256 a, uint256 b)` (MoltBond.sol lines 302-304). -/
def _min (a b : Nat) : Nat := if a < b then a else b

/-- `getReputation(address _agent)` (MoltBond.sol lines 266-285). -/
def getReputation (s : State) (agent : Addr) : Nat :=
  let a := s.agents agent
  if ¬ a.exists then 0
  else
    let totalDeals := a.dealsCompleted + a.dealsFailed
    if totalDeals = 0 then _min (a.staked / 1000000 * 10) 200
    else
      let completionScore := a.dealsCompleted * 500 / totalDeals
      let volumeScore := _min (a.totalVolume / 100000000 * 30) 300
      let stakeScore := _min (a.staked / 1000000 * 10) 200
      completionScore + volumeScore + stakeScore

/-- One externally callable operation together with its caller identity
and the `block.timestamp` at which it runs. -/
inductive Op
  | registerAgent (caller : Addr) (now : Nat) (name : String)
  | stake (caller : Addr) (now : Nat) (amount : Nat)
  | requestUnstake (caller : Addr) (now : Nat)
  | unstake (caller : Addr) (now : Nat) (amount : Nat)
  | createDeal (caller : Addr) (now : Nat) (counterparty : Addr) (amount : Nat)
      (description : String) (expiryDuration : Nat)
  | confirmDeal (caller : Addr) (now : Nat) (dealId : Nat)
  | disputeDeal (caller : Addr) (now : Nat) (dealId : Nat)
  | cancelExpiredDeal (caller : Addr) (now : Nat) (dealId : Nat)

/-- Dispatch one operation. -/
def step (s : State) : Op → Except Err (State × List Act)
  | .registerAgent c n name => registerAgent s c n name
  | .stake c n amount => stake s c n amount
  | .requestUnstake c n => requestUnstake s c n
  | .unstake c n amount => unstake s c n amount
  | .createDeal c n cp amount descr expiry => createDeal s c n cp amount descr expiry
  | .confirmDeal c n dealId => confirmDeal s c n dealId
  | .disputeDeal c n dealId => disputeDeal s c n dealId
  | .cancelExpiredDeal c n dealId => cancelExpiredDeal s c n dealId

/-- The state after an operation: a revert keeps the old state. -/
def run (s : State) (o : Op) : State :=
  match step s o with
  | .ok r => r.1
  | .error _ => s

/-- The trace of a step; empty on a revert. -/
def traceOf (r : Except Err (State × List Act)) : List Act :=
  match r with
  | .ok p => p.2
  | .error _ => []

/-- Whether a step succeeded. -/
def isOkB (r : Except Err (State × List Act)) : Bool :=
  match r with
  | .ok _ => true
  | .error _ => false

/-- The freshly deployed contract: no agents, no deals, no held funds. -/
def init : State :=
  { agents := fun _ => Agent.empty, agentList := [], deals := [],
    unstakeRequestedAt := fun _ => 0, held := 0 }

/-- States reachable from deployment by any sequence of operations. -/
inductive Reachable : State → Prop
  | init : Reachable init
  | step (s : State) (o : Op) : Reachable s → Reachable (run s o)

/-- Sum of all agents' staked balances (over the registration list). -/
def sumStaked (s : State) : Nat :=
  (s.agentList.map (fun a => (s.agents a).staked)).sum

/-- Sum of the amounts of all deals whose status is Active. -/
def sumActive (s : State) : Nat :=
  ((s.deals.filter (fun d => d.status = .Active)).map Deal.amount).sum

/-! ### Basic facts about `run` -/

lemma run_of_error {s : State} {o : Op} {e : Err} (h : step s o = .error e) :
    run s o = s := by
  simp [run, h]

lemma run_of_ok {s : State} {o : Op} {r : State × List Act} (h : step s o = .ok r) :
    run s o = r.1 := by
  simp [run, h]

/-! ### Success shapes: the exact result of each operation when its
preconditions hold, read off the source line by line. -/

lemma registerAgent_ok {s : State} {c : Addr} {n : Nat} {name : String}
    (hex : (s.agents c).exists = false)
    (hn1 : name.utf8ByteSize ≠ 0) (hn2 : name.utf8ByteSize ≤ 32) :
    step s (.registerAgent c n name) =
      .ok ({ s with
              agents := Function.update s.agents c
                { name := name, staked := 0, dealsCompleted := 0, dealsFailed := 0,
                  totalVolume := 0, registeredAt := n, «exists» := true },
              agentList := s.agentList ++ [c] },
           [.w .agentCreate, .w .agentListPush, .ev (.AgentRegistered c name n)]) := by
  simp only [step, registerAgent]
  rw [if_neg (by simp [hex]), if_neg (by omega)]

lemma stake_ok {s : State} {c : Addr} {n amt : Nat}
    (hex : (s.agents c).exists = true) (hmin : MIN_STAKE ≤ amt) :
    step s (.stake c n amt) =
      .ok ({ s with
              held := s.held + amt,
              agents := Function.update s.agents c
                ({ s.agents c with staked := (s.agents c).staked + amt }),
              unstakeRequestedAt := Function.update s.unstakeRequestedAt c 0 },
           [.transferIn c amt, .w .stakedW, .w .unstakeReqW,
            .ev (.Staked c amt ((s.agents c).staked + amt))]) := by
  simp only [step, stake]
  rw [if_neg (by simp [hex]), if_neg (by omega)]

lemma requestUnstake_ok {s : State} {c : Addr} {n : Nat}
    (hex : (s.agents c).exists = true) (hst : (s.agents c).staked ≠ 0) :
    step s (.requestUnstake c n) =
      .ok ({ s with unstakeRequestedAt := Function.update s.unstakeRequestedAt c n },
           [.w .unstakeReqW, .ev (.UnstakeRequested c n)]) := by
  simp only [step, requestUnstake]
  rw [if_neg (by simp [hex]), if_neg hst]

lemma unstake_ok_pos {s : State} {c : Addr} {n amt : Nat}
    (hex : (s.agents c).exists = true) (hle : amt ≤ (s.agents c).staked)
    (hrq : s.unstakeRequestedAt c ≠ 0)
    (hcd : s.unstakeRequestedAt c + UNSTAKE_COOLDOWN ≤ n)
    (hnz : (s.agents c).staked - amt ≠ 0) :
    step s (.unstake c n amt) =
      .ok ({ s with
              agents := Function.update s.agents c
                ({ s.agents c with staked := (s.agents c).staked - amt }),
              held := s.held - amt },
           [.w .stakedW, .transferOut c amt,
            .ev (.Unstaked c amt ((s.agents c).staked - amt))]) := by
  simp only [step, unstake]
  rw [if_neg (by simp [hex]), if_neg (by omega), if_neg hrq, if_neg (by omega), if_neg hnz]

lemma unstake_ok_zero {s : State} {c : Addr} {n amt : Nat}
    (hex : (s.agents c).exists = true) (hle : amt ≤ (s.agents c).staked)
    (hrq : s.unstakeRequestedAt c ≠ 0)
    (hcd : s.unstakeRequestedAt c + UNSTAKE_COOLDOWN ≤ n)
    (hz : (s.agents c).staked - amt = 0) :
    step s (.unstake c n amt) =
      .ok ({ s with
              agents := Function.update s.agents c
                ({ s.agents c with staked := (s.agents c).staked - amt }),
              held := s.held - amt,
              unstakeRequestedAt := Function.update s.unstakeRequestedAt c 0 },
           [.w .stakedW, .transferOut c amt, .w .unstakeReqW,
            .ev (.Unstaked c amt ((s.agents c).staked - amt))]) := by
  simp only [step, unstake]
  rw [if_neg (by simp [hex]), if_neg (by omega), if_neg hrq, if_neg (by omega), if_pos hz]

lemma createDeal_ok {s : State} {c : Addr} {n : Nat} {cp : Addr} {amt : Nat}
    {descr : String} {expiry : Nat}
    (hex1 : (s.agents c).exists = true) (hex2 : (s.agents cp).exists = true)
    (hne : c ≠ cp) (hamt : amt ≠ 0) :
    step s (.createDeal c n cp amt descr expiry) =
      .ok ({ s with
              held := s.held + amt,
              deals := s.deals ++
                [{ id := s.deals.length, creator := c, counterparty := cp,
                   amount := amt, description := descr, status := .Active,
                   createdAt := n,
                   expiresAt := n + (if 0 < expiry then expiry else DEFAULT_EXPIRY),
                   creatorConfirmed := false, counterpartyConfirmed := false }] },
           [.transferIn c amt, .w .dealPush,
            .ev (.DealCreated s.deals.length c cp amt descr)]) := by
  simp only [step, createDeal]
  rw [if_neg (by simp [hex1]), if_neg (by simp [hex2]), if_neg hne, if_neg hamt]

/-- The agent table after `_completeDeal` credits both parties. -/
def completedAgents (ag : Addr → Agent) (cr cp : Addr) (amt : Nat) : Addr → Agent :=
  let c := ag cr
  let ag1 := Function.update ag cr
    ({ c with dealsCompleted := c.dealsCompleted + 1, totalVolume := c.totalVolume + amt })
  let p := ag1 cp
  Function.update ag1 cp
    ({ p with dealsCompleted := p.dealsCompleted + 1, totalVolume := p.totalVolume + amt })

lemma confirmDeal_creator_noComplete {s : State} {c : Addr} {n i : Nat} {deal : Deal}
    (hdl : s.deals[i]? = some deal) (hact : deal.status = .Active)
    (hc : c = deal.creator) (hn : deal.counterpartyConfirmed = false) :
    step s (.confirmDeal c n i) =
      .ok ({ s with deals := s.deals.set i ({ deal with creatorConfirmed := true }) },
           [.w .confirmFlagW]) := by
  simp only [step, confirmDeal, hdl]
  rw [if_neg (by simp [hact]), if_neg (by simp [hc]), if_pos hc, if_neg (by simp [hn])]

lemma confirmDeal_cp_noComplete {s : State} {c : Addr} {n i : Nat} {deal : Deal}
    (hdl : s.deals[i]? = some deal) (hact : deal.status = .Active)
    (hnc : c ≠ deal.creator) (hc : c = deal.counterparty)
    (hn : deal.creatorConfirmed = false) :
    step s (.confirmDeal c n i) =
      .ok ({ s with deals := s.deals.set i ({ deal with counterpartyConfirmed := true }) },
           [.w .confirmFlagW]) := by
  simp only [step, confirmDeal, hdl]
  rw [if_neg (by simp [hact]), if_neg (by simp [hc]), if_neg hnc, if_neg (by simp [hn])]

lemma confirmDeal_creator_complete {s : State} {c : Addr} {n i : Nat} {deal : Deal}
    (hdl : s.deals[i]? = some deal) (hact : deal.status = .Active)
    (hc : c = deal.creator) (hy : deal.counterpartyConfirmed = true) :
    step s (.confirmDeal c n i) =
      .ok ({ s with
              deals := s.deals.set i
                ({ deal with creatorConfirmed := true, status := .Completed }),
              held := s.held - deal.amount,
              agents := completedAgents s.agents deal.creator deal.counterparty deal.amount },
           [.w .confirmFlagW, .w .statusW, .transferOut deal.counterparty deal.amount,
            .w .dealsCompletedW, .w .totalVolumeW, .w .dealsCompletedW, .w .totalVolumeW,
            .ev (.DealCompleted i n)]) := by
  have hi : i < s.deals.length := (List.getElem?_eq_some_iff.mp hdl).1
  have hg : (s.deals.set i ({ deal with creatorConfirmed := true })).getD i Deal.empty
      = ({ deal with creatorConfirmed := true }) := by
    rw [List.getD_eq_getElem?_getD, List.getElem?_set_self hi, Option.getD_some]
  simp only [step, confirmDeal, hdl]
  rw [if_neg (by simp [hact]), if_neg (by simp [hc]), if_pos hc, if_pos (by simp [hy])]
  simp only [_completeDeal]
  rw [hg, List.set_set]
  rfl

lemma confirmDeal_cp_complete {s : State} {c : Addr} {n i : Nat} {deal : Deal}
    (hdl : s.deals[i]? = some deal) (hact : deal.status = .Active)
    (hnc : c ≠ deal.creator) (hc : c = deal.counterparty)
    (hy : deal.creatorConfirmed = true) :
    step s (.confirmDeal c n i) =
      .ok ({ s with
              deals := s.deals.set i
                ({ deal with counterpartyConfirmed := true, status := .Completed }),
              held := s.held - deal.amount,
              agents := completedAgents s.agents deal.creator deal.counterparty deal.amount },
           [.w .confirmFlagW, .w .statusW, .transferOut deal.counterparty deal.amount,
            .w .dealsCompletedW, .w .totalVolumeW, .w .dealsCompletedW, .w .totalVolumeW,
            .ev (.DealCompleted i n)]) := by
  have hi : i < s.deals.length := (List.getElem?_eq_some_iff.mp hdl).1
  have hg : (s.deals.set i ({ deal with counterpartyConfirmed := true })).getD i Deal.empty
      = ({ deal with counterpartyConfirmed := true }) := by
    rw [List.getD_eq_getElem?_getD, List.getElem?_set_self hi, Option.getD_some]
  simp only [step, confirmDeal, hdl]
  rw [if_neg (by simp [hact]), if_neg (by simp [hc]), if_neg hnc, if_pos (by simp [hy])]
  simp only [_completeDeal]
  rw [hg, List.set_set]
  rfl

lemma disputeDeal_ok_slash {s : State} {c : Addr} {n i : Nat} {deal : Deal}
    {target : Addr} {sa : Nat}
    (hdl : s.deals[i]? = some deal) (hact : deal.status = .Active)
    (hparty : c = deal.creator ∨ c = deal.counterparty)
    (ht : target = if c = deal.creator then deal.counterparty else deal.creator)
    (hsa : sa = (s.agents target).staked * SLASH_PERCENT / 100)
    (hpos : 0 < sa) :
    step s (.disputeDeal c n i) =
      .ok ({ s with
              deals := s.deals.set i ({ deal with status := .Disputed }),
              held := s.held - deal.amount - sa,
              agents := Function.update s.agents target
                ({ s.agents target with
                    staked := (s.agents target).staked - sa,
                    dealsFailed := (s.agents target).dealsFailed + 1 }) },
           [.w .statusW, .transferOut deal.creator deal.amount,
            .w .stakedW, .transferOut c sa, .ev (.Slashed target sa i),
            .w .dealsFailedW, .ev (.DealDisputed i c)]) := by
  subst ht hsa
  simp only [step, disputeDeal, hdl]
  rw [if_neg (by simp [hact]), if_neg (by simp [hparty])]
  simp only [if_pos hpos, Function.update_same, Function.update_idem]
  rfl

lemma disputeDeal_ok_noSlash {s : State} {c : Addr} {n i : Nat} {deal : Deal}
    {target : Addr}
    (hdl : s.deals[i]? = some deal) (hact : deal.status = .Active)
    (hparty : c = deal.creator ∨ c = deal.counterparty)
    (ht : target = if c = deal.creator then deal.counterparty else deal.creator)
    (hz : (s.agents target).staked * SLASH_PERCENT / 100 = 0) :
    step s (.disputeDeal c n i) =
      .ok ({ s with
              deals := s.deals.set i ({ deal with status := .Disputed }),
              held := s.held - deal.amount,
              agents := Function.update s.agents target
                ({ s.agents target with
                    dealsFailed := (s.agents target).dealsFailed + 1 }) },
           [.w .statusW, .transferOut deal.creator deal.amount,
            .w .dealsFailedW, .ev (.DealDisputed i c)]) := by
  subst ht
  simp only [step, disputeDeal, hdl]
  rw [if_neg (by simp [hact]), if_neg (by simp [hparty])]
  simp only [hz, if_neg (lt_irrefl 0)]
  rfl

lemma cancelExpiredDeal_ok {s : State} {c : Addr} {n i : Nat} {deal : Deal}
    (hdl : s.deals[i]? = some deal) (hact : deal.status = .Active)
    (hexp : deal.expiresAt ≤ n) :
    step s (.cancelExpiredDeal c n i) =
      .ok ({ s with
              deals := s.deals.set i ({ deal with status := .Expired }),
              held := s.held - deal.amount },
           [.w .statusW, .transferOut deal.creator deal.amount, .ev (.DealExpired i)]) := by
  simp only [step, cancelExpiredDeal, hdl]
  rw [if_neg (by simp [hact]), if_neg (by omega)]

/-! ### Error shapes and frame lemmas -/

lemma confirmDeal_err_notActive {s : State} {c : Addr} {n dealId : Nat} {deal : Deal}
    (hdl : s.deals[dealId]? = some deal) (hna : deal.status ≠ .Active) :
    step s (.confirmDeal c n dealId) = .error .DealNotActive := by
  simp [step, confirmDeal, hdl, hna]

lemma disputeDeal_err_notActive {s : State} {c : Addr} {n dealId : Nat} {deal : Deal}
    (hdl : s.deals[dealId]? = some deal) (hna : deal.status ≠ .Active) :
    step s (.disputeDeal c n dealId) = .error .DealNotActive := by
  simp [step, disputeDeal, hdl, hna]

lemma cancelExpiredDeal_err_notActive {s : State} {c : Addr} {n dealId : Nat} {deal : Deal}
    (hdl : s.deals[dealId]? = some deal) (hna : deal.status ≠ .Active) :
    step s (.cancelExpiredDeal c n dealId) = .error .DealNotActive := by
  simp [step, cancelExpiredDeal, hdl, hna]

lemma deals_run_registerAgent (s : State) (c : Addr) (n : Nat) (name : String) :
    (run s (.registerAgent c n name)).deals = s.deals := by
  simp only [run, step, registerAgent]
  split_ifs <;> rfl

lemma deals_run_stake (s : State) (c : Addr) (n amt : Nat) :
    (run s (.stake c n amt)).deals = s.deals := by
  simp only [run, step, stake]
  split_ifs <;> rfl

lemma deals_run_requestUnstake (s : State) (c : Addr) (n : Nat) :
    (run s (.requestUnstake c n)).deals = s.deals := by
  simp only [run, step, requestUnstake]
  split_ifs <;> rfl

lemma deals_run_unstake (s : State) (c : Addr) (n amt : Nat) :
    (run s (.unstake c n amt)).deals = s.deals := by
  simp only [run, step, unstake]
  split_ifs <;> rfl

lemma run_createDeal_getElem {s : State} {c : Addr} {n : Nat} {cp : Addr}
    {amt : Nat} {descr : String} {expiry : Nat} {i : Nat} (h : i < s.deals.length) :
    (run s (.createDeal c n cp amt descr expiry)).deals[i]? = s.deals[i]? := by
  simp only [run, step, createDeal]
  split_ifs <;> simp [List.getElem?_append, h]

lemma run_confirm_getElem_ne {s : State} {c : Addr} {n dealId i : Nat}
    (hne : dealId ≠ i) :
    (run s (.confirmDeal c n dealId)).deals[i]? = s.deals[i]? := by
  cases hdl : s.deals[dealId]? with
  | none => simp [run, step, confirmDeal, hdl]
  | some deal =>
    simp only [run, step, confirmDeal, hdl]
    split_ifs <;>
      first
        | rfl
        | simp [_completeDeal, List.getElem?_set_ne hne]

lemma run_dispute_getElem_ne {s : State} {c : Addr} {n dealId i : Nat}
    (hne : dealId ≠ i) :
    (run s (.disputeDeal c n dealId)).deals[i]? = s.deals[i]? := by
  cases hdl : s.deals[dealId]? with
  | none => simp [run, step, disputeDeal, hdl]
  | some deal =>
    simp only [run, step, disputeDeal, hdl]
    split_ifs <;>
      first
        | rfl
        | simp [List.getElem?_set_ne hne]

lemma run_cancel_getElem_ne {s : State} {c : Addr} {n dealId i : Nat}
    (hne : dealId ≠ i) :
    (run s (.cancelExpiredDeal c n dealId)).deals[i]? = s.deals[i]? := by
  cases hdl : s.deals[dealId]? with
  | none => simp [run, step, cancelExpiredDeal, hdl]
  | some deal =>
    simp only [run, step, cancelExpiredDeal, hdl]
    split_ifs <;>
      first
        | rfl
        | simp [List.getElem?_set_ne hne]

/-! ### Sample states used by witnesses -/

/-- A registered agent holding a 100 USDC stake. -/
def agA : Agent :=
  { name := "A", staked := 100000000, dealsCompleted := 0, dealsFailed := 0,
    totalVolume := 0, registeredAt := 0, «exists» := true }

/-- A second registered agent holding a 100 USDC stake. -/
def agB : Agent :=
  { name := "B", staked := 100000000, dealsCompleted := 0, dealsFailed := 0,
    totalVolume := 0, registeredAt := 0, «exists» := true }

/-- An Active 50 USDC escrow deal between agents 1 and 2. -/
def dealAB : Deal :=
  { id := 0, creator := 1, counterparty := 2, amount := 50000000, description := "d",
    status := .Active, createdAt := 0, expiresAt := 604800,
    creatorConfirmed := false, counterpartyConfirmed := false }

/-- Agents 1 and 2 registered and staked, one active deal in escrow. -/
def baseS : State :=
  { agents := Function.update (Function.update (fun _ => Agent.empty) 1 agA) 2 agB,
    agentList := [1, 2],
    deals := [dealAB],
    unstakeRequestedAt := fun _ => 0,
    held := 250000000 }

lemma _min_eq_min (a b : Nat) : _min a b = min a b := by
  unfold _min
  rw [Nat.min_def]
  split_ifs <;> omega

lemma _min_le_right (a b : Nat) : _min a b ≤ b := by
  unfold _min
  split_ifs <;> omega

/-! ### C4: reputation score bounds -/

/-- C4: for every agent record, `getReputation` is between 0 and 1000
inclusive; an unregistered identity scores exactly 0; and a registered
agent with no completed or failed deals scores
`min (staked / 1 USDC * 10) 200`. -/
theorem getReputation_bounds (s : State) (a : Addr) :
    0 ≤ getReputation s a ∧ getReputation s a ≤ 1000
    ∧ ((s.agents a).exists = false → getReputation s a = 0)
    ∧ ((s.agents a).exists = true →
        (s.agents a).dealsCompleted + (s.agents a).dealsFailed = 0 →
        getReputation s a = min ((s.agents a).staked / 1000000 * 10) 200) := by
  refine ⟨Nat.zero_le _, ?_, ?_, ?_⟩
  · unfold getReputation
    dsimp only
    split_ifs with hex htd
    · exact le_trans (_min_le_right _ _) (by omega)
    · have hc : (s.agents a).dealsCompleted * 500
          / ((s.agents a).dealsCompleted + (s.agents a).dealsFailed) ≤ 500 :=
        Nat.div_le_of_le_mul (by omega)
      have hv := _min_le_right ((s.agents a).totalVolume / 100000000 * 30) 300
      have hs := _min_le_right ((s.agents a).staked / 1000000 * 10) 200
      omega
    · omega
  · intro hex
    unfold getReputation
    simp [hex]
  · intro hex htd
    unfold getReputation
    simp [hex, htd, _min_eq_min]

/-- C4 witness, evaluated on `baseS`: agent 1 is registered with a 100 USDC
stake and no deal history; address 7 is unregistered. -/
theorem getReputation_bounds_witness :
    getReputation baseS 1 = min (100000000 / 1000000 * 10) 200
    ∧ getReputation baseS 7 = 0 :=
  ⟨(getReputation_bounds baseS 1).2.2.2 (by decide) (by decide),
   (getReputation_bounds baseS 7).2.2.1 (by decide)⟩

/-! ### C6: terminal deals are frozen -/

/-- C6: once a deal's status is anything other than Active, no subsequent
operation changes that deal's record (status or any other field) again. -/
theorem deal_terminal_frozen (s : State) (o : Op) (i : Nat) (d : Deal)
    (hd : s.deals[i]? = some d) (hna : d.status ≠ .Active) :
    (run s o).deals[i]? = some d := by
  have hi : i < s.deals.length := (List.getElem?_eq_some_iff.mp hd).1
  cases o with
  | registerAgent c n name => rw [deals_run_registerAgent]; exact hd
  | stake c n amt => rw [deals_run_stake]; exact hd
  | requestUnstake c n => rw [deals_run_requestUnstake]; exact hd
  | unstake c n amt => rw [deals_run_unstake]; exact hd
  | createDeal c n cp amt descr expiry => rw [run_createDeal_getElem hi]; exact hd
  | confirmDeal c n dealId =>
    by_cases hEq : dealId = i
    · subst hEq
      rw [run_of_error (confirmDeal_err_notActive hd hna)]
      exact hd
    · rw [run_confirm_getElem_ne hEq]
      exact hd
  | disputeDeal c n dealId =>
    by_cases hEq : dealId = i
    · subst hEq
      rw [run_of_error (disputeDeal_err_notActive hd hna)]
      exact hd
    · rw [run_dispute_getElem_ne hEq]
      exact hd
  | cancelExpiredDeal c n dealId =>
    by_cases hEq : dealId = i
    · subst hEq
      rw [run_of_error (cancelExpiredDeal_err_notActive hd hna)]
      exact hd
    · rw [run_cancel_getElem_ne hEq]
      exact hd

/-- The sample deal in its Completed form. -/
def dealABdone : Deal := { dealAB with status := .Completed }

/-- `baseS` with its deal already Completed. -/
def doneS : State := { baseS with deals := [dealABdone] }

/-- C6 witness: a Completed deal survives a further `confirmDeal` call on it
untouched. -/
theorem deal_terminal_frozen_witness :
    (run doneS (.confirmDeal 1 9 0)).deals[0]? = some dealABdone :=
  deal_terminal_frozen _ _ 0 _ (by decide) (by decide)

/-! ### C8: cancelling expired deals -/

/-- C8: on an Active deal, `cancelExpiredDeal` by any caller fails
`DealNotExpired` while `now` is before expiry (leaving the state unchanged);
from expiry on it marks the deal Expired and transfers the full escrow back
to the creator, leaving every agent record (counters and staked balances)
unchanged. -/
theorem cancelExpiredDeal_spec (s : State) (c : Addr) (n i : Nat) (d : Deal)
    (hdl : s.deals[i]? = some d) (hact : d.status = .Active) :
    (n < d.expiresAt →
      step s (.cancelExpiredDeal c n i) = .error .DealNotExpired
      ∧ run s (.cancelExpiredDeal c n i) = s)
    ∧ (d.expiresAt ≤ n →
      step s (.cancelExpiredDeal c n i) =
        .ok ({ s with
                deals := s.deals.set i ({ d with status := .Expired }),
                held := s.held - d.amount },
             [.w .statusW, .transferOut d.creator d.amount, .ev (.DealExpired i)])
      ∧ (run s (.cancelExpiredDeal c n i)).agents = s.agents) := by
  constructor
  · intro h
    have he : step s (.cancelExpiredDeal c n i) = .error .DealNotExpired := by
      simp only [step, cancelExpiredDeal, hdl]
      rw [if_neg (by simp [hact]), if_pos h]
    exact ⟨he, run_of_error he⟩
  · intro h
    have hk := @cancelExpiredDeal_ok s c n i d hdl hact h
    exact ⟨hk, by rw [run_of_ok hk]⟩

/-- C8 witness: on `baseS`, an unregistered caller's cancel fails before the
7-day expiry without touching the state, and succeeds at expiry leaving all
agent records intact. -/
theorem cancelExpiredDeal_spec_witness :
    run baseS (.cancelExpiredDeal 9 3600 0) = baseS
    ∧ (run baseS (.cancelExpiredDeal 9 604800 0)).agents = baseS.agents :=
  ⟨((cancelExpiredDeal_spec baseS 9 3600 0 dealAB (by decide) (by decide)).1 (by decide)).2,
   ((cancelExpiredDeal_spec baseS 9 604800 0 dealAB (by decide) (by decide)).2 (by decide)).2⟩

/-! ### C5: error discipline -/

/-- Modelled from the spec (sections 4 and 7): the distinct named failure
condition each operation reports, with preconditions evaluated in the order
the spec lists them; `none` when every precondition holds.  (Name length is
measured in bytes, as the code's `bytes(_name).length`.) -/
def errSpec (s : State) : Op → Option Err
  | .registerAgent c _ name =>
    if (s.agents c).exists then some .AlreadyRegistered
    else if name.utf8ByteSize = 0 ∨ 32 < name.utf8ByteSize then some .InvalidName
    else none
  | .stake c _ amount =>
    if ¬ (s.agents c).exists then some .NotRegistered
    else if amount < MIN_STAKE then some .BelowMinimumStake
    else none
  | .requestUnstake c _ =>
    if ¬ (s.agents c).exists then some .NotRegistered
    else if (s.agents c).staked = 0 then some .NothingStaked
    else none
  | .unstake c n amount =>
    if ¬ (s.agents c).exists then some .NotRegistered
    else if (s.agents c).staked < amount then some .InsufficientStake
    else if s.unstakeRequestedAt c = 0 then some .NoUnstakeRequested
    else if n < s.unstakeRequestedAt c + UNSTAKE_COOLDOWN then some .CooldownNotElapsed
    else none
  | .createDeal c _ cp amount _ _ =>
    if ¬ (s.agents c).exists then some .NotRegistered
    else if ¬ (s.agents cp).exists then some .NotRegistered
    else if c = cp then some .SelfDeal
    else if amount = 0 then some .InvalidAmount
    else none
  | .confirmDeal c _ dealId =>
    match s.deals[dealId]? with
    | none => some .DealNotFound
    | some deal =>
      if ¬ deal.status = .Active then some .DealNotActive
      else if ¬ (c = deal.creator ∨ c = deal.counterparty) then some .NotAParty
      else none
  | .disputeDeal c _ dealId =>
    match s.deals[dealId]? with
    | none => some .DealNotFound
    | some deal =>
      if ¬ deal.status = .Active then some .DealNotActive
      else if ¬ (c = deal.creator ∨ c = deal.counterparty) then some .NotAParty
      else none
  | .cancelExpiredDeal _ n dealId =>
    match s.deals[dealId]? with
    | none => some .DealNotFound
    | some deal =>
      if ¬ deal.status = .Active then some .DealNotActive
      else if n < deal.expiresAt then some .DealNotExpired
      else none

/-- C5: an operation fails with a named condition exactly when the spec's
ordered precondition list says it does (so every failure is one of the
distinct named conditions, never a generic failure), and a failing
operation leaves the entire state unchanged. -/
theorem error_discipline (s : State) (o : Op) :
    (∀ e : Err, step s o = .error e ↔ errSpec s o = some e)
    ∧ (∀ e : Err, step s o = .error e → run s o = s) := by
  constructor
  · intro e
    cases o with
    | registerAgent c n name =>
      simp only [step, registerAgent, errSpec]
      split_ifs <;> simp
    | stake c n amount =>
      simp only [step, stake, errSpec]
      split_ifs <;> simp
    | requestUnstake c n =>
      simp only [step, requestUnstake, errSpec]
      split_ifs <;> simp
    | unstake c n amount =>
      simp only [step, unstake, errSpec]
      split_ifs <;> simp
    | createDeal c n cp amount descr expiry =>
      simp only [step, createDeal, errSpec]
      split_ifs <;> simp
    | confirmDeal c n dealId =>
      cases hdl : s.deals[dealId]? with
      | none => simp [step, confirmDeal, errSpec, hdl]
      | some deal =>
        simp only [step, confirmDeal, errSpec, hdl]
        split_ifs <;> simp
    | disputeDeal c n dealId =>
      cases hdl : s.deals[dealId]? with
      | none => simp [step, disputeDeal, errSpec, hdl]
      | some deal =>
        simp only [step, disputeDeal, errSpec, hdl]
        split_ifs <;> simp
    | cancelExpiredDeal c n dealId =>
      cases hdl : s.deals[dealId]? with
      | none => simp [step, cancelExpiredDeal, errSpec, hdl]
      | some deal =>
        simp only [step, cancelExpiredDeal, errSpec, hdl]
        split_ifs <;> simp
  · intro e h
    exact run_of_error h

/-- C5 witness: staking by the unregistered address 7 in `baseS` reports
`NotRegistered` and leaves the state untouched. -/
theorem error_discipline_witness :
    errSpec baseS (.stake 7 0 5) = some .NotRegistered
    ∧ run baseS (.stake 7 0 5) = baseS :=
  ⟨((error_discipline baseS (.stake 7 0 5)).1 .NotRegistered).mp (by rfl),
   (error_discipline baseS (.stake 7 0 5)).2 .NotRegistered (by rfl)⟩

/-! ### C2: bilateral confirmation completes the deal -/

/-- C2: when a party's `confirmDeal` on an Active deal makes both
confirmation flags true, that same atomic step completes the deal: status
becomes Completed, the full escrow is transferred to the counterparty, and
both the creator's and the counterparty's `dealsCompleted` counters grow by
one and their `totalVolume` counters by the deal's amount. -/
theorem confirmDeal_completes (s : State) (c : Addr) (n i : Nat) (d : Deal)
    (hdl : s.deals[i]? = some d) (hact : d.status = .Active)
    (hdist : d.creator ≠ d.counterparty)
    (hparty : c = d.creator ∨ c = d.counterparty)
    (hother : (if c = d.creator then d.counterpartyConfirmed else d.creatorConfirmed) = true) :
    ∃ tr, step s (.confirmDeal c n i) = .ok (run s (.confirmDeal c n i), tr)
      ∧ .transferOut d.counterparty d.amount ∈ tr
      ∧ (run s (.confirmDeal c n i)).deals[i]?
          = some ({ d with
                    creatorConfirmed := true, counterpartyConfirmed := true,
                    status := .Completed })
      ∧ (run s (.confirmDeal c n i)).agents d.creator
          = { s.agents d.creator with
              dealsCompleted := (s.agents d.creator).dealsCompleted + 1,
              totalVolume := (s.agents d.creator).totalVolume + d.amount }
      ∧ (run s (.confirmDeal c n i)).agents d.counterparty
          = { s.agents d.counterparty with
              dealsCompleted := (s.agents d.counterparty).dealsCompleted + 1,
              totalVolume := (s.agents d.counterparty).totalVolume + d.amount }
      ∧ (run s (.confirmDeal c n i)).held = s.held - d.amount := by
  have hi : i < s.deals.length := (List.getElem?_eq_some_iff.mp hdl).1
  by_cases hc : c = d.creator
  · rw [if_pos hc] at hother
    have hk := @confirmDeal_creator_complete s c n i d hdl hact hc hother
    rw [run_of_ok hk]
    refine ⟨_, by rw [hk], by simp, ?_, ?_, ?_, rfl⟩
    · show (s.deals.set i _)[i]? = _
      rw [List.getElem?_set_self hi, hother]
    · show completedAgents s.agents d.creator d.counterparty d.amount d.creator = _
      unfold completedAgents
      rw [Function.update_noteq (Ne.symm (Ne.symm hdist)), Function.update_same]
    · show completedAgents s.agents d.creator d.counterparty d.amount d.counterparty = _
      unfold completedAgents
      rw [Function.update_same, Function.update_noteq (Ne.symm hdist)]
  · have hcp : c = d.counterparty := hparty.resolve_left hc
    rw [if_neg hc] at hother
    have hk := @confirmDeal_cp_complete s c n i d hdl hact hc hcp hother
    rw [run_of_ok hk]
    refine ⟨_, by rw [hk], by simp, ?_, ?_, ?_, rfl⟩
    · show (s.deals.set i _)[i]? = _
      rw [List.getElem?_set_self hi, hother]
    · show completedAgents s.agents d.creator d.counterparty d.amount d.creator = _
      unfold completedAgents
      rw [Function.update_noteq (Ne.symm (Ne.symm hdist)), Function.update_same]
    · show completedAgents s.agents d.creator d.counterparty d.amount d.counterparty = _
      unfold completedAgents
      rw [Function.update_same, Function.update_noteq (Ne.symm hdist)]

/-- C2 witness: on `baseS` with the counterparty already confirmed, the
creator's confirmation completes the deal and credits both agents. -/
theorem confirmDeal_completes_witness :
    ∃ tr, step { baseS with deals := [{ dealAB with counterpartyConfirmed := true }] }
        (.confirmDeal 1 9 0)
        = .ok (run { baseS with deals := [{ dealAB with counterpartyConfirmed := true }] }
            (.confirmDeal 1 9 0), tr)
      ∧ .transferOut 2 50000000 ∈ tr := by
  obtain ⟨tr, h1, h2, h3⟩ := confirmDeal_completes
    { baseS with deals := [{ dealAB with counterpartyConfirmed := true }] }
    1 9 0 ({ dealAB with counterpartyConfirmed := true })
    (by decide) (by decide) (by decide) (Or.inl (by decide)) (by decide)
  exact ⟨tr, h1, h2⟩

/-! ### C3: disputes -/

/-- C3: `disputeDeal` on an Active deal fails `NotAParty` for any caller
other than the two parties; a party's dispute marks the deal Disputed,
returns the full escrow to the creator, slashes the other party 10 percent
(truncated) of their current stake paying it to the disputer, and
increments the slashed party's `dealsFailed`; with a zero stake no slash
transfer or Slashed event occurs but everything else still happens. -/
theorem disputeDeal_spec (s : State) (c : Addr) (n i : Nat) (d : Deal)
    (hdl : s.deals[i]? = some d) (hact : d.status = .Active) :
    (¬ (c = d.creator ∨ c = d.counterparty) →
      step s (.disputeDeal c n i) = .error .NotAParty)
    ∧ (∀ target sa,
        (c = d.creator ∨ c = d.counterparty) →
        target = (if c = d.creator then d.counterparty else d.creator) →
        sa = (s.agents target).staked * SLASH_PERCENT / 100 →
        ∃ tr, step s (.disputeDeal c n i) = .ok (run s (.disputeDeal c n i), tr)
          ∧ (run s (.disputeDeal c n i)).deals[i]? = some ({ d with status := .Disputed })
          ∧ .transferOut d.creator d.amount ∈ tr
          ∧ ((run s (.disputeDeal c n i)).agents target).staked
              = (s.agents target).staked - sa
          ∧ ((run s (.disputeDeal c n i)).agents target).dealsFailed
              = (s.agents target).dealsFailed + 1
          ∧ (0 < sa → .transferOut c sa ∈ tr)
          ∧ ((s.agents target).staked = 0 →
              tr = [.w .statusW, .transferOut d.creator d.amount,
                    .w .dealsFailedW, .ev (.DealDisputed i c)]
              ∧ (run s (.disputeDeal c n i)).held = s.held - d.amount)) := by
  have hi : i < s.deals.length := (List.getElem?_eq_some_iff.mp hdl).1
  constructor
  · intro hnp
    simp only [step, disputeDeal, hdl]
    rw [if_neg (by simp [hact]), if_pos hnp]
  · intro target sa hparty ht hsa
    by_cases hpos : 0 < sa
    · have hk := @disputeDeal_ok_slash s c n i d target sa hdl hact hparty ht hsa hpos
      rw [run_of_ok hk]
      refine ⟨_, by rw [hk], ?_, by simp, ?_, ?_, fun _ => by simp, fun hz => ?_⟩
      · show (s.deals.set i _)[i]? = _
        rw [List.getElem?_set_self hi]
      · show (Function.update s.agents target _ target).staked = _
        rw [Function.update_same]
      · show (Function.update s.agents target _ target).dealsFailed = _
        rw [Function.update_same]
      · exfalso
        rw [hz] at hsa
        omega
    · have hz : (s.agents target).staked * SLASH_PERCENT / 100 = 0 := by omega
      have hk := @disputeDeal_ok_noSlash s c n i d target hdl hact hparty ht hz
      rw [run_of_ok hk]
      refine ⟨_, by rw [hk], ?_, by simp, ?_, ?_, fun hp => absurd hp hpos, fun _ => ⟨rfl, rfl⟩⟩
      · show (s.deals.set i _)[i]? = _
        rw [List.getElem?_set_self hi]
      · show (Function.update s.agents target _ target).staked = _
        rw [Function.update_same]
        show (s.agents target).staked = (s.agents target).staked - sa
        omega
      · show (Function.update s.agents target _ target).dealsFailed = _
        rw [Function.update_same]

/-- C3 witness: on `baseS`, the creator's dispute slashes the counterparty
10 USDC of its 100 USDC stake and increments its failure counter. -/
theorem disputeDeal_spec_witness :
    ((run baseS (.disputeDeal 1 9 0)).agents 2).staked = 100000000 - 10000000
    ∧ ((run baseS (.disputeDeal 1 9 0)).agents 2).dealsFailed = 1 := by
  obtain ⟨tr, h1, h2, h3, h4, h5, h6, h7⟩ :=
    (disputeDeal_spec baseS 1 9 0 dealAB (by decide) (by decide)).2 2 10000000
      (Or.inl (by decide)) (by decide) (by decide)
  exact ⟨h4, h5⟩

/-! ### C10: slash truncation below ten base units -/

/-- C10: when the non-disputing party's stake is positive but below ten base
units, the 10 percent slash truncates to zero: the dispute still succeeds,
marking the deal Disputed and incrementing the slashed party's
`dealsFailed`, but the trace carries no compensation transfer and no
Slashed event, and the slashed party's staked balance is untouched. -/
theorem disputeDeal_slash_truncation (s : State) (c : Addr) (n i : Nat) (d : Deal)
    (target : Addr)
    (hdl : s.deals[i]? = some d) (hact : d.status = .Active)
    (hparty : c = d.creator ∨ c = d.counterparty)
    (ht : target = (if c = d.creator then d.counterparty else d.creator))
    (hpos : 0 < (s.agents target).staked) (hlt : (s.agents target).staked < 10) :
    step s (.disputeDeal c n i) =
      .ok ({ s with
              deals := s.deals.set i ({ d with status := .Disputed }),
              held := s.held - d.amount,
              agents := Function.update s.agents target
                ({ s.agents target with
                    dealsFailed := (s.agents target).dealsFailed + 1 }) },
           [.w .statusW, .transferOut d.creator d.amount,
            .w .dealsFailedW, .ev (.DealDisputed i c)]) := by
  have hz : (s.agents target).staked * SLASH_PERCENT / 100 = 0 := by
    apply Nat.div_eq_of_lt
    unfold SLASH_PERCENT
    omega
  exact disputeDeal_ok_noSlash hdl hact hparty ht hz

/-- C10 witness: with the counterparty holding only 7 base units of stake,
the creator's dispute emits no slash transfer and no Slashed event yet
still records the failure. -/
theorem disputeDeal_slash_truncation_witness :
    step { baseS with agents := Function.update baseS.agents 2 ({ agB with staked := 7 }) }
        (.disputeDeal 1 9 0) =
      .ok ({ { baseS with agents := Function.update baseS.agents 2 ({ agB with staked := 7 }) } with
              deals := List.set [dealAB] 0 ({ dealAB with status := .Disputed }),
              held := 250000000 - 50000000,
              agents := Function.update
                (Function.update baseS.agents 2 ({ agB with staked := 7 })) 2
                ({ { agB with staked := 7 } with dealsFailed := 1 }) },
           [.w .statusW, .transferOut 1 50000000,
            .w .dealsFailedW, .ev (.DealDisputed 0 1)]) := by
  have h := disputeDeal_slash_truncation
    { baseS with agents := Function.update baseS.agents 2 ({ agB with staked := 7 }) }
    1 9 0 dealAB 2 (by decide) (by decide) (Or.inl (by decide)) (by decide)
    (by simp [baseS, agB]) (by simp [baseS, agB])
  simpa [baseS, agB, dealAB] using h

/-! ### C9: idempotent confirmation -/

/-- C9: calling `confirmDeal` twice in a row from the same party yields the
same state as calling it once; the second call has no additional effect. -/
theorem confirmDeal_idempotent (s : State) (c : Addr) (n m i : Nat) :
    run (run s (.confirmDeal c n i)) (.confirmDeal c m i)
      = run s (.confirmDeal c n i) := by
  cases hdl : s.deals[i]? with
  | none =>
    have h1 : step s (.confirmDeal c n i) = .error .DealNotFound := by
      simp [step, confirmDeal, hdl]
    rw [run_of_error h1]
    have h2 : step s (.confirmDeal c m i) = .error .DealNotFound := by
      simp [step, confirmDeal, hdl]
    exact run_of_error h2
  | some deal =>
    have hi : i < s.deals.length := (List.getElem?_eq_some_iff.mp hdl).1
    by_cases hact : deal.status = .Active
    · by_cases hparty : c = deal.creator ∨ c = deal.counterparty
      · by_cases hc : c = deal.creator
        · by_cases hcp : deal.counterpartyConfirmed = true
          · have hk := @confirmDeal_creator_complete s c n i deal hdl hact hc hcp
            rw [run_of_ok hk]
            apply run_of_error
            apply confirmDeal_err_notActive (List.getElem?_set_self hi)
            simp
          · have hcp' : deal.counterpartyConfirmed = false := by
              simpa using hcp
            have hk := @confirmDeal_creator_noComplete s c n i deal hdl hact hc hcp'
            rw [run_of_ok hk]
            have hk2 := @confirmDeal_creator_noComplete
              ({ s with deals := s.deals.set i ({ deal with creatorConfirmed := true }) })
              c m i ({ deal with creatorConfirmed := true })
              (List.getElem?_set_self hi) hact hc hcp'
            rw [run_of_ok hk2]
            rw [List.set_set]
        · have hcp : c = deal.counterparty := hparty.resolve_left hc
          by_cases hcr : deal.creatorConfirmed = true
          · have hk := @confirmDeal_cp_complete s c n i deal hdl hact hc hcp hcr
            rw [run_of_ok hk]
            apply run_of_error
            apply confirmDeal_err_notActive (List.getElem?_set_self hi)
            simp
          · have hcr' : deal.creatorConfirmed = false := by
              simpa using hcr
            have hk := @confirmDeal_cp_noComplete s c n i deal hdl hact hc hcp hcr'
            rw [run_of_ok hk]
            have hk2 := @confirmDeal_cp_noComplete
              ({ s with deals := s.deals.set i ({ deal with counterpartyConfirmed := true }) })
              c m i ({ deal with counterpartyConfirmed := true })
              (List.getElem?_set_self hi) hact hc hcp hcr'
            rw [run_of_ok hk2]
            rw [List.set_set]
      · have he : ∀ t, step s (.confirmDeal c t i) = .error .NotAParty := by
          intro t
          simp only [step, confirmDeal, hdl]
          rw [if_neg (by simp [hact]), if_pos hparty]
        rw [run_of_error (he n)]
        exact run_of_error (he m)
    · rw [run_of_error (confirmDeal_err_notActive hdl hact)]
      exact run_of_error (@confirmDeal_err_notActive s c m i deal hdl hact)

/-! ### C7: ordering of bookkeeping and fund transfers -/

/-- Whether an action is one of the bookkeeping writes the spec tracks:
deal status, agent counters, staked balances. -/
def isCoreWrite : Act → Bool
  | .w .statusW => true
  | .w .stakedW => true
  | .w .dealsCompletedW => true
  | .w .dealsFailedW => true
  | .w .totalVolumeW => true
  | _ => false

/-- Whether an action is an external fund transfer. -/
def isTransfer : Act → Bool
  | .transferIn _ _ => true
  | .transferOut _ _ => true
  | _ => false

/-- Whether every tracked bookkeeping write in a trace precedes every fund
transfer of the trace. -/
def writesPrecedeTransfers : List Act → Bool
  | [] => true
  | a :: rest =>
    if isTransfer a then rest.all (fun x => ! isCoreWrite x)
    else writesPrecedeTransfers rest

/-- Sample state for the C7 counterexample: `baseS` with the counterparty
already confirmed on the deal. -/
def confS : State :=
  { baseS with deals := [{ dealAB with counterpartyConfirmed := true }] }

/-- C7 counterexample: a successful `stake` issues its inbound transfer
before the staked-balance credit, and a completing `confirmDeal` updates
both parties' counters only after the escrow transfer, so bookkeeping does
not reach its final value before the transfers are issued. -/
theorem bookkeeping_before_transfers_cex :
    isOkB (step baseS (.stake 1 0 1000000)) = true
    ∧ writesPrecedeTransfers (traceOf (step baseS (.stake 1 0 1000000))) = false
    ∧ isOkB (step confS (.confirmDeal 1 9 0)) = true
    ∧ writesPrecedeTransfers (traceOf (step confS (.confirmDeal 1 9 0))) = false := by
  decide

/-- C7 amended: only `cancelExpiredDeal` finalizes all tracked bookkeeping
before its transfer; `unstake` decrements the staked balance before its
outbound transfer (the cooldown reset follows it); `stake` credits the
staked balance only after the inbound transfer; a completing `confirmDeal`
writes the deal status before the escrow transfer but all four counter
updates after it; `disputeDeal` writes the deal status before the escrow
transfer but issues the slash's staked decrement and the `dealsFailed`
increment after it. -/
theorem bookkeeping_transfer_order (s : State) (c : Addr) (n : Nat) :
    (∀ i d, s.deals[i]? = some d → d.status = .Active → d.expiresAt ≤ n →
      traceOf (step s (.cancelExpiredDeal c n i)) =
        [.w .statusW, .transferOut d.creator d.amount, .ev (.DealExpired i)]
      ∧ writesPrecedeTransfers
          (traceOf (step s (.cancelExpiredDeal c n i))) = true)
    ∧ (∀ amt, (s.agents c).exists = true → MIN_STAKE ≤ amt →
      traceOf (step s (.stake c n amt)) =
        [.transferIn c amt, .w .stakedW, .w .unstakeReqW,
         .ev (.Staked c amt ((s.agents c).staked + amt))])
    ∧ (∀ amt, (s.agents c).exists = true → amt ≤ (s.agents c).staked →
        s.unstakeRequestedAt c ≠ 0 →
        s.unstakeRequestedAt c + UNSTAKE_COOLDOWN ≤ n →
      traceOf (step s (.unstake c n amt)) =
        [.w .stakedW, .transferOut c amt]
          ++ (if (s.agents c).staked - amt = 0 then [.w .unstakeReqW] else [])
          ++ [.ev (.Unstaked c amt ((s.agents c).staked - amt))])
    ∧ (∀ i d, s.deals[i]? = some d → d.status = .Active →
        (c = d.creator ∨ c = d.counterparty) →
        (if c = d.creator then d.counterpartyConfirmed else d.creatorConfirmed) = true →
      traceOf (step s (.confirmDeal c n i)) =
        [.w .confirmFlagW, .w .statusW, .transferOut d.counterparty d.amount,
         .w .dealsCompletedW, .w .totalVolumeW, .w .dealsCompletedW, .w .totalVolumeW,
         .ev (.DealCompleted i n)])
    ∧ (∀ i d target sa, s.deals[i]? = some d → d.status = .Active →
        (c = d.creator ∨ c = d.counterparty) →
        target = (if c = d.creator then d.counterparty else d.creator) →
        sa = (s.agents target).staked * SLASH_PERCENT / 100 →
      traceOf (step s (.disputeDeal c n i)) =
        [.w .statusW, .transferOut d.creator d.amount]
          ++ (if 0 < sa then [.w .stakedW, .transferOut c sa, .ev (.Slashed target sa i)]
              else [])
          ++ [.w .dealsFailedW, .ev (.DealDisputed i c)]) := by
  refine ⟨?_, ?_, ?_, ?_, ?_⟩
  · intro i d hdl hact hexp
    rw [cancelExpiredDeal_ok hdl hact hexp]
    exact ⟨rfl, rfl⟩
  · intro amt hex hmin
    rw [stake_ok hex hmin]
    rfl
  · intro amt hex hle hrq hcd
    by_cases hz : (s.agents c).staked - amt = 0
    · rw [unstake_ok_zero hex hle hrq hcd hz, if_pos hz]
      rfl
    · rw [unstake_ok_pos hex hle hrq hcd hz, if_neg hz]
      rfl
  · intro i d hdl hact hparty hother
    by_cases hc : c = d.creator
    · rw [if_pos hc] at hother
      rw [@confirmDeal_creator_complete s c n i d hdl hact hc hother]
      rfl
    · rw [if_neg hc] at hother
      rw [@confirmDeal_cp_complete s c n i d hdl hact hc (hparty.resolve_left hc) hother]
      rfl
  · intro i d target sa hdl hact hparty ht hsa
    by_cases hpos : 0 < sa
    · rw [@disputeDeal_ok_slash s c n i d target sa hdl hact hparty ht hsa hpos, if_pos hpos]
      rfl
    · have hz : (s.agents target).staked * SLASH_PERCENT / 100 = 0 := by omega
      rw [@disputeDeal_ok_noSlash s c n i d target hdl hact hparty ht hz, if_neg hpos]
      rfl

/-- C7 amended witness: the exact traces on `baseS` for a cancel at expiry
and a 1 USDC stake. -/
theorem bookkeeping_transfer_order_witness :
    traceOf (step baseS (.cancelExpiredDeal 9 604800 0)) =
      [.w .statusW, .transferOut 1 50000000, .ev (.DealExpired 0)]
    ∧ traceOf (step baseS (.stake 1 0 1000000)) =
      [.transferIn 1 1000000, .w .stakedW, .w .unstakeReqW,
       .ev (.Staked 1 1000000 (100000000 + 1000000))] := by
  constructor
  · exact ((bookkeeping_transfer_order baseS 9 604800).1 0 dealAB
      (by decide) (by decide) (by decide)).1
  · have h := (bookkeeping_transfer_order baseS 1 0).2.1 1000000 (by decide) (by decide)
    simpa [baseS, agA] using h

/-! ### C1: conservation -/

/-- The contribution of one deal to the escrowed total: its amount while
Active, nothing afterwards. -/
def dealActiveAmt (d : Deal) : Nat := if d.status = .Active then d.amount else 0

lemma sumActive_eq_indicator (ds : List Deal) :
    ((ds.filter (fun d => d.status = .Active)).map Deal.amount).sum
      = (ds.map dealActiveAmt).sum := by
  induction ds with
  | nil => rfl
  | cons x tl ih =>
    by_cases hx : x.status = .Active <;>
      simp [List.filter_cons, dealActiveAmt, hx, ih]

lemma indicator_sum_set (ds : List Deal) (i : Nat) (d d' : Deal)
    (h : ds[i]? = some d) :
    ((ds.set i d').map dealActiveAmt).sum + dealActiveAmt d
      = (ds.map dealActiveAmt).sum + dealActiveAmt d' := by
  induction ds generalizing i with
  | nil => simp at h
  | cons x tl ih =>
    cases i with
    | zero =>
      simp only [List.getElem?_cons_zero, Option.some.injEq] at h
      subst h
      simp only [List.set_cons_zero, List.map_cons, List.sum_cons]
      omega
    | succ j =>
      simp only [List.getElem?_cons_succ] at h
      simp only [List.set_cons_succ, List.map_cons, List.sum_cons]
      have := ih j h
      omega

lemma indicator_sum_append (ds : List Deal) (d : Deal) :
    ((ds ++ [d]).map dealActiveAmt).sum
      = (ds.map dealActiveAmt).sum + dealActiveAmt d := by
  simp

lemma indicator_le_sum (ds : List Deal) (i : Nat) (d : Deal) (h : ds[i]? = some d) :
    dealActiveAmt d ≤ (ds.map dealActiveAmt).sum := by
  obtain ⟨hlt, rfl⟩ := List.getElem?_eq_some_iff.mp h
  exact List.single_le_sum (fun x _ => Nat.zero_le x) _
    (List.mem_map_of_mem _ (List.getElem_mem hlt))

lemma staked_le_sum (l : List Addr) (f : Addr → Agent) (a : Addr) (ha : a ∈ l) :
    (f a).staked ≤ (l.map (fun x => (f x).staked)).sum :=
  List.single_le_sum (fun x _ => Nat.zero_le x) _ (List.mem_map_of_mem _ ha)

lemma map_staked_congr (l : List Addr) (f g : Addr → Agent)
    (h : ∀ x, (g x).staked = (f x).staked) :
    (l.map (fun x => (g x).staked)).sum = (l.map (fun x => (f x).staked)).sum := by
  have he : (fun x => (g x).staked) = fun x => (f x).staked := funext h
  rw [he]

lemma map_staked_update_not_mem (l : List Addr) (f : Addr → Agent) (a : Addr)
    (v : Agent) (h : a ∉ l) :
    (l.map (fun x => (Function.update f a v x).staked)).sum
      = (l.map (fun x => (f x).staked)).sum := by
  induction l with
  | nil => rfl
  | cons x tl ih =>
    simp only [List.mem_cons, not_or] at h
    simp only [List.map_cons, List.sum_cons]
    rw [Function.update_noteq (fun hEq => h.1 hEq.symm), ih h.2]

lemma sum_staked_update (l : List Addr) (f : Addr → Agent) (a : Addr) (v : Agent)
    (hnd : l.Nodup) (ha : a ∈ l) :
    (l.map (fun x => (Function.update f a v x).staked)).sum + (f a).staked
      = (l.map (fun x => (f x).staked)).sum + v.staked := by
  induction l with
  | nil => simp at ha
  | cons x tl ih =>
    have hx : x ∉ tl := (List.nodup_cons.mp hnd).1
    have htl : tl.Nodup := (List.nodup_cons.mp hnd).2
    simp only [List.map_cons, List.sum_cons]
    rcases List.mem_cons.mp ha with hax | hat
    · subst hax
      rw [Function.update_same, map_staked_update_not_mem tl f a v hx]
      omega
    · have hne : a ≠ x := fun hEq => hx (hEq ▸ hat)
      rw [Function.update_noteq (Ne.symm hne)]
      have := ih htl hat
      omega

lemma completedAgents_staked (ag : Addr → Agent) (cr cp : Addr) (amt : Nat) (x : Addr) :
    (completedAgents ag cr cp amt x).staked = (ag x).staked := by
  unfold completedAgents
  by_cases hcp : x = cp
  · subst hcp
    rw [Function.update_same]
    by_cases hcr : x = cr
    · subst hcr
      rw [Function.update_same]
    · rw [Function.update_noteq hcr]
  · rw [Function.update_noteq hcp]
    by_cases hcr : x = cr
    · subst hcr
      rw [Function.update_same]
    · rw [Function.update_noteq hcr]

lemma completedAgents_exists (ag : Addr → Agent) (cr cp : Addr) (amt : Nat) (x : Addr) :
    (completedAgents ag cr cp amt x).exists = (ag x).exists := by
  unfold completedAgents
  by_cases hcp : x = cp
  · subst hcp
    rw [Function.update_same]
    by_cases hcr : x = cr
    · subst hcr
      rw [Function.update_same]
    · rw [Function.update_noteq hcr]
  · rw [Function.update_noteq hcp]
    by_cases hcr : x = cr
    · subst hcr
      rw [Function.update_same]
    · rw [Function.update_noteq hcr]

/-- The inductive invariant behind conservation: the registration list is
duplicate-free and mirrors the `exists` flags, unregistered identities hold
no stake, and the held balance equals staked plus Active escrow. -/
def Inv (s : State) : Prop :=
  s.agentList.Nodup
  ∧ (∀ a, (s.agents a).exists = true ↔ a ∈ s.agentList)
  ∧ (∀ a, (s.agents a).exists = false → (s.agents a).staked = 0)
  ∧ s.held = sumStaked s + sumActive s

lemma Inv_init : Inv init := by
  refine ⟨List.nodup_nil, ?_, ?_, rfl⟩
  · intro a
    simp [init, Agent.empty]
  · intro a _
    rfl

lemma cons_core (s : State) :
    (s.held = sumStaked s + sumActive s)
      ↔ s.held = (s.agentList.map (fun x => (s.agents x).staked)).sum
          + (s.deals.map dealActiveAmt).sum := by
  unfold sumStaked sumActive
  rw [sumActive_eq_indicator]

lemma Inv_run_registerAgent (s : State) (c : Addr) (nn : Nat) (name : String)
    (hInv : Inv s) : Inv (run s (.registerAgent c nn name)) := by
  obtain ⟨hnd, hreg, hzero, hcons⟩ := hInv
  by_cases hex : (s.agents c).exists = true
  · have he : step s (.registerAgent c nn name) = .error .AlreadyRegistered := by
      simp [step, registerAgent, hex]
    rw [run_of_error he]
    exact ⟨hnd, hreg, hzero, hcons⟩
  · by_cases hname : name.utf8ByteSize = 0 ∨ 32 < name.utf8ByteSize
    · have he : step s (.registerAgent c nn name) = .error .InvalidName := by
        simp only [step, registerAgent]
        rw [if_neg hex, if_pos hname]
      rw [run_of_error he]
      exact ⟨hnd, hreg, hzero, hcons⟩
    · push_neg at hname
      have hex' : (s.agents c).exists = false := by
        simpa using hex
      have hk := @registerAgent_ok s c nn name hex' hname.1 hname.2
      rw [run_of_ok hk]
      unfold Inv sumStaked sumActive
      dsimp only
      have hmem : c ∉ s.agentList := fun hm => hex ((hreg c).mpr hm)
      refine ⟨?_, ?_, ?_, ?_⟩
      · exact List.nodup_append.mpr ⟨hnd, List.nodup_singleton c,
          fun x hx hxc => hmem ((List.mem_singleton.mp hxc) ▸ hx)⟩
      · intro a
        by_cases hac : a = c
        · subst hac
          rw [Function.update_same]
          simp
        · rw [Function.update_noteq hac]
          simp [List.mem_append, hac, hreg a]
      · intro a ha
        by_cases hac : a = c
        · subst hac
          rw [Function.update_same] at ha
          simp at ha
        · rw [Function.update_noteq hac] at ha ⊢
          exact hzero a ha
      · rw [List.map_append, List.sum_append,
          map_staked_update_not_mem _ _ _ _ hmem, sumActive_eq_indicator]
        have hc := (cons_core s).mp hcons
        simp only [List.map_cons, List.map_nil, List.sum_cons, List.sum_nil,
          Function.update_same]
        omega

lemma Inv_run_stake (s : State) (c : Addr) (nn amt : Nat)
    (hInv : Inv s) : Inv (run s (.stake c nn amt)) := by
  obtain ⟨hnd, hreg, hzero, hcons⟩ := hInv
  by_cases hex : (s.agents c).exists = true
  · by_cases hmin : amt < MIN_STAKE
    · have he : step s (.stake c nn amt) = .error .BelowMinimumStake := by
        simp only [step, stake]
        rw [if_neg (by simp [hex]), if_pos hmin]
      rw [run_of_error he]
      exact ⟨hnd, hreg, hzero, hcons⟩
    · have hk := @stake_ok s c nn amt hex (Nat.not_lt.mp hmin)
      rw [run_of_ok hk]
      unfold Inv sumStaked sumActive
      dsimp only
      have hmem : c ∈ s.agentList := (hreg c).mp hex
      refine ⟨hnd, ?_, ?_, ?_⟩
      · intro a
        by_cases hac : a = c
        · subst hac
          rw [Function.update_same]
          exact hreg a
        · rw [Function.update_noteq hac]
          exact hreg a
      · intro a ha
        by_cases hac : a = c
        · subst hac
          rw [Function.update_same] at ha
          exact absurd hex (by simpa using ha)
        · rw [Function.update_noteq hac] at ha ⊢
          exact hzero a ha
      · have hupd := sum_staked_update s.agentList s.agents c
          ({ s.agents c with staked := (s.agents c).staked + amt }) hnd hmem
        dsimp only at hupd
        have hc := (cons_core s).mp hcons
        rw [sumActive_eq_indicator]
        omega
  · have he : step s (.stake c nn amt) = .error .NotRegistered := by
      simp only [step, stake]
      rw [if_pos hex]
    rw [run_of_error he]
    exact ⟨hnd, hreg, hzero, hcons⟩

lemma Inv_run_requestUnstake (s : State) (c : Addr) (nn : Nat)
    (hInv : Inv s) : Inv (run s (.requestUnstake c nn)) := by
  obtain ⟨hnd, hreg, hzero, hcons⟩ := hInv
  by_cases hex : (s.agents c).exists = true
  · by_cases hst : (s.agents c).staked = 0
    · have he : step s (.requestUnstake c nn) = .error .NothingStaked := by
        simp only [step, requestUnstake]
        rw [if_neg (by simp [hex]), if_pos hst]
      rw [run_of_error he]
      exact ⟨hnd, hreg, hzero, hcons⟩
    · have hk := @requestUnstake_ok s c nn hex hst
      rw [run_of_ok hk]
      exact ⟨hnd, hreg, hzero, hcons⟩
  · have he : step s (.requestUnstake c nn) = .error .NotRegistered := by
      simp only [step, requestUnstake]
      rw [if_pos hex]
    rw [run_of_error he]
    exact ⟨hnd, hreg, hzero, hcons⟩

lemma Inv_unstake_state (s : State) (c : Addr) (amt : Nat) (u : Addr → Nat)
    (hnd : s.agentList.Nodup)
    (hreg : ∀ a, (s.agents a).exists = true ↔ a ∈ s.agentList)
    (hzero : ∀ a, (s.agents a).exists = false → (s.agents a).staked = 0)
    (hcons : s.held = sumStaked s + sumActive s)
    (hex : (s.agents c).exists = true) (hle : amt ≤ (s.agents c).staked) :
    Inv { s with
          agents := Function.update s.agents c
            ({ s.agents c with staked := (s.agents c).staked - amt }),
          held := s.held - amt,
          unstakeRequestedAt := u } := by
  unfold Inv sumStaked sumActive
  dsimp only
  have hmem : c ∈ s.agentList := (hreg c).mp hex
  refine ⟨hnd, ?_, ?_, ?_⟩
  · intro a
    by_cases hac : a = c
    · subst hac
      rw [Function.update_same]
      exact hreg a
    · rw [Function.update_noteq hac]
      exact hreg a
  · intro a ha
    by_cases hac : a = c
    · subst hac
      rw [Function.update_same] at ha
      exact absurd hex (by simpa using ha)
    · rw [Function.update_noteq hac] at ha ⊢
      exact hzero a ha
  · have hupd := sum_staked_update s.agentList s.agents c
      ({ s.agents c with staked := (s.agents c).staked - amt }) hnd hmem
    dsimp only at hupd
    have hsle := staked_le_sum s.agentList s.agents c hmem
    have hc := (cons_core s).mp hcons
    rw [sumActive_eq_indicator]
    omega

lemma Inv_run_unstake (s : State) (c : Addr) (nn amt : Nat)
    (hInv : Inv s) : Inv (run s (.unstake c nn amt)) := by
  obtain ⟨hnd, hreg, hzero, hcons⟩ := hInv
  by_cases hex : (s.agents c).exists = true
  · by_cases hin : (s.agents c).staked < amt
    · have he : step s (.unstake c nn amt) = .error .InsufficientStake := by
        simp only [step, unstake]
        rw [if_neg (by simp [hex]), if_pos hin]
      rw [run_of_error he]
      exact ⟨hnd, hreg, hzero, hcons⟩
    · by_cases hrq : s.unstakeRequestedAt c = 0
      · have he : step s (.unstake c nn amt) = .error .NoUnstakeRequested := by
          simp only [step, unstake]
          rw [if_neg (by simp [hex]), if_neg hin, if_pos hrq]
        rw [run_of_error he]
        exact ⟨hnd, hreg, hzero, hcons⟩
      · by_cases hcd : nn < s.unstakeRequestedAt c + UNSTAKE_COOLDOWN
        · have he : step s (.unstake c nn amt) = .error .CooldownNotElapsed := by
            simp only [step, unstake]
            rw [if_neg (by simp [hex]), if_neg hin, if_neg hrq, if_pos hcd]
          rw [run_of_error he]
          exact ⟨hnd, hreg, hzero, hcons⟩
        · by_cases hz : (s.agents c).staked - amt = 0
          · have hk := @unstake_ok_zero s c nn amt hex (Nat.not_lt.mp hin) hrq
              (Nat.not_lt.mp hcd) hz
            rw [run_of_ok hk]
            exact Inv_unstake_state s c amt _ hnd hreg hzero hcons hex (Nat.not_lt.mp hin)
          · have hk := @unstake_ok_pos s c nn amt hex (Nat.not_lt.mp hin) hrq
              (Nat.not_lt.mp hcd) hz
            rw [run_of_ok hk]
            exact Inv_unstake_state s c amt _ hnd hreg hzero hcons hex (Nat.not_lt.mp hin)
  · have he : step s (.unstake c nn amt) = .error .NotRegistered := by
      simp only [step, unstake]
      rw [if_pos hex]
    rw [run_of_error he]
    exact ⟨hnd, hreg, hzero, hcons⟩

lemma Inv_run_createDeal (s : State) (c : Addr) (nn : Nat) (cp : Addr)
    (amt : Nat) (descr : String) (expiry : Nat)
    (hInv : Inv s) : Inv (run s (.createDeal c nn cp amt descr expiry)) := by
  obtain ⟨hnd, hreg, hzero, hcons⟩ := hInv
  by_cases hex1 : (s.agents c).exists = true
  · by_cases hex2 : (s.agents cp).exists = true
    · by_cases hne : c = cp
      · have he : step s (.createDeal c nn cp amt descr expiry) = .error .SelfDeal := by
          simp only [step, createDeal]
          rw [if_neg (by simp [hex1]), if_neg (by simp [hex2]), if_pos hne]
        rw [run_of_error he]
        exact ⟨hnd, hreg, hzero, hcons⟩
      · by_cases hamt : amt = 0
        · have he : step s (.createDeal c nn cp amt descr expiry)
              = .error .InvalidAmount := by
            simp only [step, createDeal]
            rw [if_neg (by simp [hex1]), if_neg (by simp [hex2]), if_neg hne,
              if_pos hamt]
          rw [run_of_error he]
          exact ⟨hnd, hreg, hzero, hcons⟩
        · have hk := @createDeal_ok s c nn cp amt descr expiry hex1 hex2 hne hamt
          rw [run_of_ok hk]
          unfold Inv sumStaked sumActive
          dsimp only
          refine ⟨hnd, hreg, hzero, ?_⟩
          rw [sumActive_eq_indicator, indicator_sum_append]
          have hc := (cons_core s).mp hcons
          simp only [dealActiveAmt, if_true, eq_self_iff_true]
          omega
    · have he : step s (.createDeal c nn cp amt descr expiry)
          = .error .NotRegistered := by
        simp only [step, createDeal]
        rw [if_neg (by simp [hex1]), if_pos hex2]
      rw [run_of_error he]
      exact ⟨hnd, hreg, hzero, hcons⟩
  · have he : step s (.createDeal c nn cp amt descr expiry)
        = .error .NotRegistered := by
      simp only [step, createDeal]
      rw [if_pos hex1]
    rw [run_of_error he]
    exact ⟨hnd, hreg, hzero, hcons⟩

lemma Inv_set_deal_same (s : State) (i : Nat) (d d' : Deal)
    (hdl : s.deals[i]? = some d) (hAA : dealActiveAmt d' = dealActiveAmt d)
    (hInv : Inv s) : Inv { s with deals := s.deals.set i d' } := by
  obtain ⟨hnd, hreg, hzero, hcons⟩ := hInv
  unfold Inv sumStaked sumActive
  dsimp only
  refine ⟨hnd, hreg, hzero, ?_⟩
  rw [sumActive_eq_indicator]
  have hset := indicator_sum_set s.deals i d d' hdl
  have hc := (cons_core s).mp hcons
  omega

lemma Inv_close_deal (s : State) (i : Nat) (d d' : Deal) (ag : Addr → Agent)
    (hdl : s.deals[i]? = some d) (hact : d.status = .Active)
    (hd'na : dealActiveAmt d' = 0)
    (hagst : ∀ x, (ag x).staked = (s.agents x).staked)
    (hagex : ∀ x, (ag x).exists = (s.agents x).exists)
    (hInv : Inv s) :
    Inv { s with
          deals := s.deals.set i d', held := s.held - d.amount,
          agents := ag } := by
  obtain ⟨hnd, hreg, hzero, hcons⟩ := hInv
  unfold Inv sumStaked sumActive
  dsimp only
  refine ⟨hnd, ?_, ?_, ?_⟩
  · intro a
    rw [hagex a]
    exact hreg a
  · intro a ha
    rw [hagex a] at ha
    rw [hagst a]
    exact hzero a ha
  · rw [map_staked_congr s.agentList s.agents ag hagst, sumActive_eq_indicator]
    have hset := indicator_sum_set s.deals i d d' hdl
    have hdd : dealActiveAmt d = d.amount := by
      simp [dealActiveAmt, hact]
    have hle := indicator_le_sum s.deals i d hdl
    have hc := (cons_core s).mp hcons
    omega

lemma Inv_dispute_slash (s : State) (tg : Addr) (i : Nat) (d : Deal)
    (hdl : s.deals[i]? = some d) (hact : d.status = .Active)
    (hpos : 0 < (s.agents tg).staked * SLASH_PERCENT / 100)
    (hInv : Inv s) :
    Inv { s with
          deals := s.deals.set i ({ d with status := .Disputed }),
          held := s.held - d.amount - (s.agents tg).staked * SLASH_PERCENT / 100,
          agents := Function.update s.agents tg
            ({ s.agents tg with
                staked := (s.agents tg).staked
                  - (s.agents tg).staked * SLASH_PERCENT / 100,
                dealsFailed := (s.agents tg).dealsFailed + 1 }) } := by
  obtain ⟨hnd, hreg, hzero, hcons⟩ := hInv
  have hst : (s.agents tg).staked ≠ 0 := by
    intro h0
    rw [h0] at hpos
    simp at hpos
  have hexT : (s.agents tg).exists = true := by
    by_contra hT
    exact hst (hzero tg (by simpa using hT))
  have hmem : tg ∈ s.agentList := (hreg tg).mp hexT
  unfold Inv sumStaked sumActive
  dsimp only
  refine ⟨hnd, ?_, ?_, ?_⟩
  · intro a
    by_cases hac : a = tg
    · subst hac
      rw [Function.update_same]
      exact hreg a
    · rw [Function.update_noteq hac]
      exact hreg a
  · intro a ha
    by_cases hac : a = tg
    · subst hac
      rw [Function.update_same] at ha
      exact absurd hexT (by simpa using ha)
    · rw [Function.update_noteq hac] at ha ⊢
      exact hzero a ha
  · have hupd := sum_staked_update s.agentList s.agents tg
      ({ s.agents tg with
          staked := (s.agents tg).staked - (s.agents tg).staked * SLASH_PERCENT / 100,
          dealsFailed := (s.agents tg).dealsFailed + 1 }) hnd hmem
    dsimp only at hupd
    have hsale : (s.agents tg).staked * SLASH_PERCENT / 100 ≤ (s.agents tg).staked :=
      Nat.div_le_of_le_mul (by unfold SLASH_PERCENT; omega)
    have hstle := staked_le_sum s.agentList s.agents tg hmem
    have hset := indicator_sum_set s.deals i d ({ d with status := .Disputed }) hdl
    have hdd : dealActiveAmt d = d.amount := by
      simp [dealActiveAmt, hact]
    have hdd' : dealActiveAmt ({ d with status := .Disputed }) = 0 := by
      simp [dealActiveAmt]
    have hle := indicator_le_sum s.deals i d hdl
    have hc := (cons_core s).mp hcons
    rw [sumActive_eq_indicator]
    omega

lemma Inv_run_confirmDeal (s : State) (c : Addr) (nn dealId : Nat)
    (hInv : Inv s) : Inv (run s (.confirmDeal c nn dealId)) := by
  cases hdl : s.deals[dealId]? with
  | none =>
    have he : step s (.confirmDeal c nn dealId) = .error .DealNotFound := by
      simp [step, confirmDeal, hdl]
    rw [run_of_error he]
    exact hInv
  | some deal =>
    by_cases hact : deal.status = .Active
    · by_cases hparty : c = deal.creator ∨ c = deal.counterparty
      · by_cases hc : c = deal.creator
        · by_cases hcp : deal.counterpartyConfirmed = true
          · have hk := @confirmDeal_creator_complete s c nn dealId deal hdl hact hc hcp
            rw [run_of_ok hk]
            exact Inv_close_deal s dealId deal
              ({ deal with creatorConfirmed := true, status := .Completed })
              (completedAgents s.agents deal.creator deal.counterparty deal.amount)
              hdl hact (by simp [dealActiveAmt])
              (completedAgents_staked s.agents deal.creator deal.counterparty deal.amount)
              (completedAgents_exists s.agents deal.creator deal.counterparty deal.amount)
              hInv
          · have hk := @confirmDeal_creator_noComplete s c nn dealId deal hdl hact hc
              (by simpa using hcp)
            rw [run_of_ok hk]
            exact Inv_set_deal_same s dealId deal
              ({ deal with creatorConfirmed := true }) hdl rfl hInv
        · have hcp : c = deal.counterparty := hparty.resolve_left hc
          by_cases hcr : deal.creatorConfirmed = true
          · have hk := @confirmDeal_cp_complete s c nn dealId deal hdl hact hc hcp hcr
            rw [run_of_ok hk]
            exact Inv_close_deal s dealId deal
              ({ deal with counterpartyConfirmed := true, status := .Completed })
              (completedAgents s.agents deal.creator deal.counterparty deal.amount)
              hdl hact (by simp [dealActiveAmt])
              (completedAgents_staked s.agents deal.creator deal.counterparty deal.amount)
              (completedAgents_exists s.agents deal.creator deal.counterparty deal.amount)
              hInv
          · have hk := @confirmDeal_cp_noComplete s c nn dealId deal hdl hact hc hcp
              (by simpa using hcr)
            rw [run_of_ok hk]
            exact Inv_set_deal_same s dealId deal
              ({ deal with counterpartyConfirmed := true }) hdl rfl hInv
      · have he : step s (.confirmDeal c nn dealId) = .error .NotAParty := by
          simp only [step, confirmDeal, hdl]
          rw [if_neg (by simp [hact]), if_pos hparty]
        rw [run_of_error he]
        exact hInv
    · rw [run_of_error (confirmDeal_err_notActive hdl hact)]
      exact hInv

lemma Inv_run_disputeDeal (s : State) (c : Addr) (nn dealId : Nat)
    (hInv : Inv s) : Inv (run s (.disputeDeal c nn dealId)) := by
  cases hdl : s.deals[dealId]? with
  | none =>
    have he : step s (.disputeDeal c nn dealId) = .error .DealNotFound := by
      simp [step, disputeDeal, hdl]
    rw [run_of_error he]
    exact hInv
  | some deal =>
    by_cases hact : deal.status = .Active
    · by_cases hparty : c = deal.creator ∨ c = deal.counterparty
      · by_cases hpos : 0 < (s.agents
            (if c = deal.creator then deal.counterparty else deal.creator)).staked
              * SLASH_PERCENT / 100
        · have hk := @disputeDeal_ok_slash s c nn dealId deal
            (if c = deal.creator then deal.counterparty else deal.creator)
            ((s.agents (if c = deal.creator then deal.counterparty
              else deal.creator)).staked * SLASH_PERCENT / 100)
            hdl hact hparty rfl rfl hpos
          rw [run_of_ok hk]
          exact Inv_dispute_slash s _ dealId deal hdl hact hpos hInv
        · have hz : (s.agents (if c = deal.creator then deal.counterparty
              else deal.creator)).staked * SLASH_PERCENT / 100 = 0 := by
            omega
          have hk := @disputeDeal_ok_noSlash s c nn dealId deal
            (if c = deal.creator then deal.counterparty else deal.creator)
            hdl hact hparty rfl hz
          rw [run_of_ok hk]
          apply Inv_close_deal s dealId deal ({ deal with status := .Disputed })
            (Function.update s.agents
              (if c = deal.creator then deal.counterparty else deal.creator)
              ({ s.agents (if c = deal.creator then deal.counterparty else deal.creator) with
                  dealsFailed := (s.agents (if c = deal.creator then deal.counterparty
                    else deal.creator)).dealsFailed + 1 }))
            hdl hact (by simp [dealActiveAmt]) ?_ ?_ hInv
          · intro x
            by_cases hx : x = (if c = deal.creator then deal.counterparty
                else deal.creator)
            · subst hx
              rw [Function.update_same]
            · rw [Function.update_noteq hx]
          · intro x
            by_cases hx : x = (if c = deal.creator then deal.counterparty
                else deal.creator)
            · subst hx
              rw [Function.update_same]
            · rw [Function.update_noteq hx]
      · have he : step s (.disputeDeal c nn dealId) = .error .NotAParty := by
          simp only [step, disputeDeal, hdl]
          rw [if_neg (by simp [hact]), if_pos hparty]
        rw [run_of_error he]
        exact hInv
    · rw [run_of_error (disputeDeal_err_notActive hdl hact)]
      exact hInv

lemma Inv_run_cancel (s : State) (c : Addr) (nn dealId : Nat)
    (hInv : Inv s) : Inv (run s (.cancelExpiredDeal c nn dealId)) := by
  cases hdl : s.deals[dealId]? with
  | none =>
    have he : step s (.cancelExpiredDeal c nn dealId) = .error .DealNotFound := by
      simp [step, cancelExpiredDeal, hdl]
    rw [run_of_error he]
    exact hInv
  | some deal =>
    by_cases hact : deal.status = .Active
    · by_cases hexp : nn < deal.expiresAt
      · have he : step s (.cancelExpiredDeal c nn dealId) = .error .DealNotExpired := by
          simp only [step, cancelExpiredDeal, hdl]
          rw [if_neg (by simp [hact]), if_pos hexp]
        rw [run_of_error he]
        exact hInv
      · have hk := @cancelExpiredDeal_ok s c nn dealId deal hdl hact (Nat.not_lt.mp hexp)
        rw [run_of_ok hk]
        exact Inv_close_deal s dealId deal ({ deal with status := .Expired })
          s.agents hdl hact (by simp [dealActiveAmt]) (fun _ => rfl) (fun _ => rfl) hInv
    · rw [run_of_error (cancelExpiredDeal_err_notActive hdl hact)]
      exact hInv

lemma Inv_run (s : State) (o : Op) (hInv : Inv s) : Inv (run s o) := by
  cases o with
  | registerAgent c n name => exact Inv_run_registerAgent s c n name hInv
  | stake c n amt => exact Inv_run_stake s c n amt hInv
  | requestUnstake c n => exact Inv_run_requestUnstake s c n hInv
  | unstake c n amt => exact Inv_run_unstake s c n amt hInv
  | createDeal c n cp amt descr expiry =>
    exact Inv_run_createDeal s c n cp amt descr expiry hInv
  | confirmDeal c n dealId => exact Inv_run_confirmDeal s c n dealId hInv
  | disputeDeal c n dealId => exact Inv_run_disputeDeal s c n dealId hInv
  | cancelExpiredDeal c n dealId => exact Inv_run_cancel s c n dealId hInv

/-- C1: conservation: in every reachable state, the contract's held token
balance equals the sum of all agents' staked balances plus the sum of the
amounts of all Active deals. -/
theorem conservation (s : State) (h : Reachable s) :
    s.held = sumStaked s + sumActive s := by
  have hInv : Inv s := by
    induction h with
    | init => exact Inv_init
    | step s o _ ih => exact Inv_run s o ih
  exact hInv.2.2.2

/-- C1 witness: conservation evaluated on the concrete state obtained by
registering two agents, staking, opening a deal and disputing it. -/
theorem conservation_witness :
    (run (run (run (run (run init
        (.registerAgent 1 0 "A")) (.registerAgent 2 0 "B"))
        (.stake 1 0 100000000)) (.createDeal 1 5 2 50000000 "d" 0))
        (.disputeDeal 2 6 0)).held
      = sumStaked (run (run (run (run (run init
          (.registerAgent 1 0 "A")) (.registerAgent 2 0 "B"))
          (.stake 1 0 100000000)) (.createDeal 1 5 2 50000000 "d" 0))
          (.disputeDeal 2 6 0))
        + sumActive (run (run (run (run (run init
            (.registerAgent 1 0 "A")) (.registerAgent 2 0 "B"))
            (.stake 1 0 100000000)) (.createDeal 1 5 2 50000000 "d" 0))
            (.disputeDeal 2 6 0)) :=
  conservation _ (Reachable.step _ _ (Reachable.step _ _ (Reachable.step _ _
    (Reachable.step _ _ (Reachable.step _ _ Reachable.init)))))

end MoltBond
